import Mathlib

/-!
Verification of the FM-Recipes recipe-management core against its
natural-language specification.

The development shallowly embeds the data model and the operations of the
repository:
- the relational rows of the Prisma schema (Recipe, RecipeIngredient,
  RecipeRating, Item) become Lean structures over Nat ids, String text,
  rational numbers for times and quantities, and Option Int for the three
  optional integer rating scores;
- the whole database becomes a Store record of row lists plus a counter
  supplying fresh ids (standing in for uuid generation);
- each source operation (RecipeService methods, CustomPrismaClient methods,
  RecipeController handlers) becomes an executable Lean function on Store;
- JavaScript truthiness tests such as `if (filters?.minRating)` and
  defaulting such as `value || null` are embedded explicitly, since zero and
  the empty string are falsy;
- SQLite evaluation details are kept: integer columns divide with
  truncating integer division, and an SQL comparison against a NULL
  aggregate is not satisfied.
-/

/-- The Difficulty enum of the Prisma schema and src/types.ts. -/
inductive Difficulty
  | easy
  | medium
  | hard
deriving DecidableEq, Repr

/-- A row of the Recipe table (timestamps omitted; no claim mentions them). -/
structure RecipeRow where
  id : Nat
  name : String
  description : Option String
  instructions : String
  prepTime : ℚ
  cookTime : ℚ
  servings : ℚ
  difficulty : Difficulty
  usageCount : Nat
  userId : Nat
  familyId : Nat
deriving DecidableEq, Repr

/-- A row of the RecipeIngredient table. -/
structure IngredientRow where
  id : Nat
  recipeId : Nat
  itemId : Nat
  quantity : ℚ
  unit : String
  notes : Option String
deriving DecidableEq, Repr

/-- A row of the RecipeRating table: the three scores are nullable INTEGER
columns, the comment a nullable TEXT column. -/
structure RatingRow where
  id : Nat
  recipeId : Nat
  userId : Nat
  nutrition : Option ℤ
  flavor : Option ℤ
  difficulty : Option ℤ
  comment : Option String
deriving DecidableEq, Repr

/-- A row of the external Item table (referenced by ingredient lines). -/
structure ItemRow where
  id : Nat
  name : String
deriving DecidableEq, Repr

/-- The database state: the four tables plus a counter handing out fresh ids
(the embedding of uuid generation: every id ever stored is below nextId). -/
structure Store where
  recipes : List RecipeRow
  ingredients : List IngredientRow
  ratings : List RatingRow
  items : List ItemRow
  nextId : Nat
deriving DecidableEq, Repr

/-- The error taxonomy relevant to the claims. -/
inductive RecipeErr
  | notFound
  | forbidden
  | persistence
deriving DecidableEq, Repr

/-- JavaScript `v || null` on a nullable integer: 0 is falsy, so an explicit
zero collapses to null. -/
def jsOrNullZ : Option ℤ → Option ℤ
  | some v => if v = 0 then none else some v
  | none => none

/-- JavaScript `s || null` on a nullable string: the empty string is falsy. -/
def jsOrNullStr : Option String → Option String
  | some s => if s = "" then none else some s
  | none => none

/-- JavaScript truthiness of an optional number, as in
`if (filters?.minRating)`: absent and 0 are both falsy. -/
def truthyQ : Option ℚ → Option ℚ
  | some x => if x = 0 then none else some x
  | none => none

/-- Substring test on character lists (the embedding of the SQL contains
predicate used by the list filters). -/
def charListHasSub (pat hay : List Char) : Bool :=
  hay.tails.any (fun t => pat.isPrefixOf t)

/-- Substring test on strings. -/
def strContains (hay pat : String) : Bool :=
  charListHasSub pat.data hay.data

/-- The rating rows of one recipe (the ratings include of the queries). -/
def ratingsOf (s : Store) (rid : Nat) : List RatingRow :=
  s.ratings.filter (fun rt => decide (rt.recipeId = rid))

/-- The ingredient rows of one recipe. -/
def ingredientsOf (s : Store) (rid : Nat) : List IngredientRow :=
  s.ingredients.filter (fun i => decide (i.recipeId = rid))

namespace RecipeService

/-- RecipeService.calculateAverageRating: filter the ratings to those where
the given field is non-null, then sum (with the JavaScript `v || 0` read of
each value) and divide by the count; 0 when no rating qualifies. -/
def calculateAverageRating (ratings : List RatingRow) (field : RatingRow → Option ℤ) : ℚ :=
  let valid := ratings.filter (fun r => (field r).isSome)
  if valid.length = 0 then 0
  else (valid.map (fun r => (((field r).getD 0 : ℤ) : ℚ))).sum / valid.length

end RecipeService

/-- The rating payload accepted by rateRecipe (src/types.ts RateRecipeInput):
three optional integer scores and an optional comment. -/
structure RateInput where
  nutrition : Option ℤ
  flavor : Option ℤ
  difficulty : Option ℤ
  comment : Option String
deriving DecidableEq, Repr

namespace CustomPrismaClient

/-- One SET clause of the update path of rateRecipe: a supplied field
overwrites the column, an absent field leaves it untouched. -/
def mergeField {α : Type} (new old : Option α) : Option α :=
  match new with
  | some v => some v
  | none => old

/-- How many payload properties are defined: the number of SET clauses the
update path of rateRecipe builds. -/
def suppliedFields (p : RateInput) : Nat :=
  (if p.nutrition.isSome then 1 else 0) + (if p.flavor.isSome then 1 else 0) +
    (if p.difficulty.isSome then 1 else 0) + (if p.comment.isSome then 1 else 0)

/-- The row update performed by the UPDATE statement of rateRecipe. -/
def mergeRatingRow (p : RateInput) (r : RatingRow) : RatingRow :=
  { r with
    nutrition := mergeField p.nutrition r.nutrition
    flavor := mergeField p.flavor r.flavor
    difficulty := mergeField p.difficulty r.difficulty
    comment := mergeField p.comment r.comment }

/-- The row inserted by the INSERT statement of rateRecipe: every value goes
through the JavaScript default `value || null`, so a zero score or an empty
comment is stored as NULL. -/
def createRatingRow (s : Store) (recipeId userId : Nat) (p : RateInput) : RatingRow :=
  { id := s.nextId
    recipeId := recipeId
    userId := userId
    nutrition := jsOrNullZ p.nutrition
    flavor := jsOrNullZ p.flavor
    difficulty := jsOrNullZ p.difficulty
    comment := jsOrNullStr p.comment }

/-- CustomPrismaClient.rateRecipe: look for an existing row keyed by
(recipeId, userId); update it field by field when present, otherwise insert
a fresh row. An update with no supplied field builds a malformed SQL
statement (Prisma.join over an empty clause list raises) and errors without
touching the store; an insert referencing an absent recipe id violates the
foreign key and errors. -/
def rateRecipe (s : Store) (recipeId userId : Nat) (p : RateInput) :
    Store × Option RecipeErr :=
  if s.ratings.any (fun r => decide (r.recipeId = recipeId) && decide (r.userId = userId)) then
    if suppliedFields p = 0 then (s, some RecipeErr.persistence)
    else
      ({ s with ratings := s.ratings.map (fun r =>
          if r.recipeId = recipeId ∧ r.userId = userId then mergeRatingRow p r else r) },
        none)
  else
    if s.recipes.any (fun r => decide (r.id = recipeId)) then
      ({ s with
          ratings := s.ratings ++ [createRatingRow s recipeId userId p]
          nextId := s.nextId + 1 }, none)
    else (s, some RecipeErr.persistence)

end CustomPrismaClient

/-- The rating rows stored for one (recipeId, userId) pair. -/
def pairRows (s : Store) (recipeId userId : Nat) : List RatingRow :=
  s.ratings.filter (fun r => decide (r.recipeId = recipeId) && decide (r.userId = userId))

/-- A concrete recipe row (id 1, owner user 1, family 10) for the witnesses. -/
def demoRecipe : RecipeRow :=
  { id := 1, name := "Pasta", description := none, instructions := "Boil",
    prepTime := 30, cookTime := 40, servings := 4, difficulty := Difficulty.medium,
    usageCount := 0, userId := 1, familyId := 10 }

/-- A concrete ingredient row of demoRecipe. -/
def demoIngredient : IngredientRow :=
  { id := 2, recipeId := 1, itemId := 3, quantity := 2, unit := "cups", notes := none }

/-- A concrete item row referenced by demoIngredient. -/
def demoItem : ItemRow :=
  { id := 3, name := "Tomato" }

/-- A small concrete database used by the witnesses: one recipe (id 1, owner
user 1, family 10) with one ingredient referencing the one item. -/
def demoStore : Store :=
  { recipes := [demoRecipe]
    ingredients := [demoIngredient]
    ratings := []
    items := [demoItem]
    nextId := 4 }

/-- First concrete rating payload used by the witnesses. -/
def ratePayload1 : RateInput :=
  { nutrition := some 5, flavor := some 4, difficulty := none, comment := none }

/-- Second concrete rating payload used by the witnesses. -/
def ratePayload2 : RateInput :=
  { nutrition := none, flavor := some 2, difficulty := some 3, comment := none }

/-- A rating payload with explicit zero scores, used by the witnesses. -/
def zeroPayload : RateInput :=
  { nutrition := some 0, flavor := some 0, difficulty := some 0, comment := none }

/-- The two-rating example of the spec: user B rates flavor 4, user C rates
flavor 2 and nutrition 5. -/
def exampleRatings : List RatingRow :=
  [ { id := 1, recipeId := 1, userId := 2,
      nutrition := none, flavor := some 4, difficulty := none, comment := none },
    { id := 2, recipeId := 1, userId := 3,
      nutrition := some 5, flavor := some 2, difficulty := none, comment := none } ]

/-- The filter object of src/types.ts RecipeFilters. -/
structure RecipeFilters where
  name : Option String
  difficulty : Option Difficulty
  maxPrepTime : Option ℚ
  maxCookTime : Option ℚ
  minRating : Option ℚ
  ingredient : Option String
deriving DecidableEq, Repr

/-- A recipe of the list and detail views together with its included child
rows and its computed average ratings. -/
structure RecipeWithDetails where
  recipe : RecipeRow
  ingredients : List IngredientRow
  ratings : List RatingRow
  avgNutrition : ℚ
  avgFlavor : ℚ
  avgDifficulty : ℚ
deriving DecidableEq, Repr

namespace RecipeService

/-- The where clause RecipeService.listRecipes pushes into the query: family
match always, plus the pushed filters. A filter property is applied only
when JavaScript-truthy, so an absent value, an empty string, and the number
0 all impose no condition. -/
def listWhere (s : Store) (familyId : Nat) (f : RecipeFilters) (r : RecipeRow) : Bool :=
  decide (r.familyId = familyId) &&
  (match jsOrNullStr f.name with
   | some n => strContains r.name n
   | none => true) &&
  (match f.difficulty with
   | some d => decide (r.difficulty = d)
   | none => true) &&
  (match truthyQ f.maxPrepTime with
   | some t => decide (r.prepTime ≤ t)
   | none => true) &&
  (match truthyQ f.maxCookTime with
   | some t => decide (r.cookTime ≤ t)
   | none => true) &&
  (match jsOrNullStr f.ingredient with
   | some q => s.ingredients.any (fun ing => decide (ing.recipeId = r.id) &&
       s.items.any (fun it => decide (it.id = ing.itemId) && strContains it.name q))
   | none => true)

/-- The per-recipe decoration applied by listRecipes and getRecipe: attach
the included child rows and the three per-field averages. -/
def detailsFor (s : Store) (r : RecipeRow) : RecipeWithDetails :=
  { recipe := r
    ingredients := ingredientsOf s r.id
    ratings := ratingsOf s r.id
    avgNutrition := calculateAverageRating (ratingsOf s r.id) (fun x => x.nutrition)
    avgFlavor := calculateAverageRating (ratingsOf s r.id) (fun x => x.flavor)
    avgDifficulty := calculateAverageRating (ratingsOf s r.id) (fun x => x.difficulty) }

/-- RecipeService.listRecipes: query the recipes of the family with the
pushed-down filters, decorate each with its average ratings, and then, only
when minRating is truthy, keep the recipes whose average flavor rating
reaches it. -/
def listRecipes (s : Store) (familyId : Nat) (f : RecipeFilters) :
    List RecipeWithDetails :=
  let recipesWithRatings := (s.recipes.filter (listWhere s familyId f)).map (detailsFor s)
  match truthyQ f.minRating with
  | none => recipesWithRatings
  | some m => recipesWithRatings.filter (fun d => decide (m ≤ d.avgFlavor))

end RecipeService

/-- One ingredient item of a create or update payload. -/
structure IngredientInput where
  itemId : Nat
  quantity : ℚ
  unit : String
  notes : Option String
deriving DecidableEq, Repr

/-- The create payload (src/types.ts CreateRecipeInput). -/
structure CreateRecipeInput where
  name : String
  description : Option String
  instructions : String
  prepTime : ℚ
  cookTime : ℚ
  servings : ℚ
  difficulty : Option Difficulty
  ingredients : List IngredientInput
deriving DecidableEq, Repr

/-- The update payload (src/types.ts UpdateRecipeInput). -/
structure UpdateRecipeInput where
  name : Option String
  description : Option String
  instructions : Option String
  prepTime : Option ℚ
  cookTime : Option ℚ
  servings : Option ℚ
  difficulty : Option Difficulty
  ingredients : Option (List IngredientInput)
deriving DecidableEq, Repr

/-- The authenticated caller attached to a request (controller UserContext). -/
structure UserContext where
  id : Nat
  role : String
  familyId : Nat
deriving DecidableEq, Repr

/-- Whether an item id exists: the foreign-key constraint every ingredient
insert must satisfy. -/
def itemExists (s : Store) (itemId : Nat) : Bool :=
  s.items.any (fun it => decide (it.id = itemId))

/-- The value quadruple of a stored ingredient row (identity dropped). -/
def ingredientVals (i : IngredientRow) : Nat × ℚ × String × Option String :=
  (i.itemId, i.quantity, i.unit, i.notes)

/-- The value quadruple a raw single-row insert stores for an ingredient of
the payload: notes run through the JavaScript value-or-null default. -/
def inputVals (ing : IngredientInput) : Nat × ℚ × String × Option String :=
  (ing.itemId, ing.quantity, ing.unit, jsOrNullStr ing.notes)

/-- The plain value quadruple of a payload ingredient, unnormalized. -/
def inputValsPlain (ing : IngredientInput) : Nat × ℚ × String × Option String :=
  (ing.itemId, ing.quantity, ing.unit, ing.notes)

/-- Sequential single-row ingredient INSERT statements, one per ingredient,
as issued by the loops of the createRecipe and updateRecipe transactions of
client.ts; notes run through the JavaScript value-or-null default. Fails
(none) as soon as an itemId violates the item foreign key. -/
def insertIngredientsSeq (s : Store) (recipeId : Nat) :
    List IngredientInput → Option Store
  | [] => some s
  | ing :: rest =>
    if itemExists s ing.itemId then
      let row : IngredientRow :=
        { id := s.nextId, recipeId := recipeId, itemId := ing.itemId,
          quantity := ing.quantity, unit := ing.unit, notes := jsOrNullStr ing.notes }
      insertIngredientsSeq
        { s with ingredients := s.ingredients ++ [row], nextId := s.nextId + 1 }
        recipeId rest
    else none

/-- The rows a prisma createMany builds from a payload: ids run upward from
base; notes pass through unchanged (no value-or-null default here). -/
def ingredientRowsFrom (base recipeId : Nat) : List IngredientInput → List IngredientRow
  | [] => []
  | ing :: rest =>
    { id := base, recipeId := recipeId, itemId := ing.itemId,
      quantity := ing.quantity, unit := ing.unit, notes := ing.notes } ::
      ingredientRowsFrom (base + 1) recipeId rest

/-- prisma recipeIngredient.createMany: one multi-row INSERT statement that
checks every row against the item foreign key and inserts all rows or, on
any violation, none (a single SQL statement is atomic by itself). -/
def createMany (s : Store) (recipeId : Nat) (ings : List IngredientInput) : Option Store :=
  if ings.all (fun ing => itemExists s ing.itemId) then
    some { s with
      ingredients := s.ingredients ++ ingredientRowsFrom s.nextId recipeId ings
      nextId := s.nextId + ings.length }
  else none

/-- The SET clauses of a recipe field update: every defined payload field
overwrites its column, undefined fields are skipped. -/
def applyRecipeData (d : UpdateRecipeInput) (r : RecipeRow) : RecipeRow :=
  { r with
    name := d.name.getD r.name
    description := CustomPrismaClient.mergeField d.description r.description
    instructions := d.instructions.getD r.instructions
    prepTime := d.prepTime.getD r.prepTime
    cookTime := d.cookTime.getD r.cookTime
    servings := d.servings.getD r.servings
    difficulty := d.difficulty.getD r.difficulty }

namespace CustomPrismaClient

/-- CustomPrismaClient.findRecipeById: the recipe row joined with its
ingredient and rating rows, or none when the id is absent. -/
def findRecipeById (s : Store) (id : Nat) :
    Option (RecipeRow × List IngredientRow × List RatingRow) :=
  match s.recipes.find? (fun r => decide (r.id = id)) with
  | none => none
  | some r => some (r, ingredientsOf s id, ratingsOf s id)

/-- The recipe row the INSERT of createRecipe builds: fresh id, description
via the value-or-null default, difficulty defaulted to MEDIUM, usageCount 0. -/
def newRecipeRow (s : Store) (userId familyId : Nat) (d : CreateRecipeInput) : RecipeRow :=
  { id := s.nextId, name := d.name, description := jsOrNullStr d.description,
    instructions := d.instructions, prepTime := d.prepTime, cookTime := d.cookTime,
    servings := d.servings, difficulty := d.difficulty.getD Difficulty.medium,
    usageCount := 0, userId := userId, familyId := familyId }

/-- The store after the parent INSERT of createRecipe. -/
def recipeInsertedState (s : Store) (userId familyId : Nat) (d : CreateRecipeInput) :
    Store :=
  { s with
    recipes := s.recipes ++ [newRecipeRow s userId familyId d]
    nextId := s.nextId + 1 }

/-- CustomPrismaClient.createRecipe: inside one transaction, INSERT the
recipe row and then one INSERT per ingredient; a failing insert aborts the
transaction, so no store is produced on error. -/
def createRecipe (s : Store) (userId familyId : Nat) (d : CreateRecipeInput) :
    Except RecipeErr (Store × Nat) :=
  match insertIngredientsSeq (recipeInsertedState s userId familyId d) s.nextId
      d.ingredients with
  | none => Except.error RecipeErr.persistence
  | some s2 => Except.ok (s2, s.nextId)

/-- Driver around createRecipe making the transaction boundary explicit: on
an error the transaction rolls back and the caller observes the original
store unchanged. -/
def runCreateRecipe (s : Store) (userId familyId : Nat) (d : CreateRecipeInput) :
    Store × Option RecipeErr :=
  match createRecipe s userId familyId d with
  | Except.ok (s2, _) => (s2, none)
  | Except.error e => (s, some e)

/-- CustomPrismaClient.updateRecipe: inside one transaction, apply the SET
clauses of the defined fields, replace the ingredient set when one is
supplied (DELETE then one INSERT per row), and re-read the recipe; a missing
id surfaces as an error when the re-read finds nothing. -/
def updateRecipe (s : Store) (id : Nat) (d : UpdateRecipeInput) :
    Except RecipeErr (Store × RecipeRow) :=
  let s1 : Store :=
    { s with recipes := s.recipes.map (fun r => if r.id = id then applyRecipeData d r else r) }
  let step2 : Option Store :=
    match d.ingredients with
    | some ings =>
      insertIngredientsSeq
        { s1 with ingredients := s1.ingredients.filter (fun i => decide (¬ i.recipeId = id)) }
        id ings
    | none => some s1
  match step2 with
  | none => Except.error RecipeErr.persistence
  | some s2 =>
    match s2.recipes.find? (fun r => decide (r.id = id)) with
    | none => Except.error RecipeErr.persistence
    | some r => Except.ok (s2, r)

/-- CustomPrismaClient.deleteRecipe: read the recipe, error when absent,
then DELETE it; ingredient and rating rows go with it by cascade. -/
def deleteRecipe (s : Store) (id : Nat) : Except RecipeErr (Store × RecipeRow) :=
  match s.recipes.find? (fun r => decide (r.id = id)) with
  | none => Except.error RecipeErr.notFound
  | some r =>
    Except.ok ({ s with
      recipes := s.recipes.filter (fun x => decide (¬ x.id = id))
      ingredients := s.ingredients.filter (fun i => decide (¬ i.recipeId = id))
      ratings := s.ratings.filter (fun rt => decide (¬ rt.recipeId = id)) }, r)

/-- CustomPrismaClient.incrementUsageCount: a raw UPDATE with no existence
check; a missing id matches zero rows and the call still completes, so the
result type has no error outcome at all. -/
def incrementUsageCount (s : Store) (id : Nat) : Store :=
  { s with recipes := s.recipes.map (fun r =>
      if r.id = id then { r with usageCount := r.usageCount + 1 } else r) }

/-- The where object of countRecipes. -/
structure CountWhere where
  userId : Option Nat
  familyId : Option Nat
  difficulty : Option Difficulty
  minRating : Option ℚ
deriving DecidableEq, Repr

/-- The per-row value of the minRating subquery of countRecipes:
(COALESCE(nutrition,0) + COALESCE(flavor,0) + COALESCE(difficulty,0)) / 3
over INTEGER columns, which SQLite evaluates with truncating integer
division. -/
def jointRowScore (rt : RatingRow) : ℤ :=
  (rt.nutrition.getD 0 + rt.flavor.getD 0 + rt.difficulty.getD 0).tdiv 3

/-- The SQL avg of the per-row scores: NULL (none) over an empty row set. -/
def jointRatingAvg (rows : List RatingRow) : Option ℚ :=
  match rows with
  | [] => none
  | _ => some ((rows.map (fun rt => ((jointRowScore rt : ℤ) : ℚ))).sum / rows.length)

/-- An equality condition applied only when the filter value is present. -/
def optCondNat (o : Option Nat) (v : Nat) : Bool :=
  match o with
  | some u => decide (v = u)
  | none => true

/-- The difficulty condition, applied only when present. -/
def optCondDiff (o : Option Difficulty) (v : Difficulty) : Bool :=
  match o with
  | some dd => decide (v = dd)
  | none => true

/-- The minimum-rating condition of countRecipes: applied only when the
value is truthy; it compares the avg subquery against the bound, and a NULL
avg (a recipe with no rating rows) never satisfies an SQL comparison. -/
def minRatingCond (s : Store) (mr : Option ℚ) (rid : Nat) : Bool :=
  match truthyQ mr with
  | some m =>
    (match jointRatingAvg (ratingsOf s rid) with
     | some a => decide (m ≤ a)
     | none => false)
  | none => true

/-- The filter countRecipes composes from the truthy filter values. -/
def countedPred (s : Store) (w : CountWhere) (r : RecipeRow) : Bool :=
  optCondNat w.userId r.userId && optCondNat w.familyId r.familyId &&
    optCondDiff w.difficulty r.difficulty && minRatingCond s w.minRating r.id

/-- CustomPrismaClient.countRecipes: COUNT(*) of the recipes passing the
composed filter. -/
def countRecipes (s : Store) (w : CountWhere) : Nat :=
  (s.recipes.filter (countedPred s w)).length

end CustomPrismaClient

/-- Modelled from the words of the count specification and the claim: the
minimum aggregate rating as the claim reads it, the exact (unrounded) mean
over the rating rows of (nutrition + flavor + difficulty) / 3 with null
fields as zero. Used only to compare the claimed rule with the code. -/
def claimJointMean (rows : List RatingRow) : ℚ :=
  (rows.map (fun rt =>
    (((rt.nutrition.getD 0 : ℤ) : ℚ) + ((rt.flavor.getD 0 : ℤ) : ℚ) +
      ((rt.difficulty.getD 0 : ℤ) : ℚ)) / 3)).sum / rows.length

namespace RecipeService

/-- RecipeService.createRecipe: prisma recipe.create for the parent row and
then, when the list is non-empty, recipeIngredient.createMany for the
ingredient rows. The two statements do not run in a transaction, so when
createMany fails the parent row stays behind; the store mutated so far is
returned next to the error. -/
def createRecipe (s : Store) (userId familyId : Nat) (input : CreateRecipeInput) :
    Store × Option RecipeErr :=
  let rid := s.nextId
  let recipeRow : RecipeRow :=
    { id := rid, name := input.name, description := input.description,
      instructions := input.instructions, prepTime := input.prepTime,
      cookTime := input.cookTime, servings := input.servings,
      difficulty := input.difficulty.getD Difficulty.medium,
      usageCount := 0, userId := userId, familyId := familyId }
  let s1 : Store := { s with recipes := s.recipes ++ [recipeRow], nextId := s.nextId + 1 }
  if input.ingredients.length > 0 then
    match createMany s1 rid input.ingredients with
    | none => (s1, some RecipeErr.persistence)
    | some s2 => (s2, none)
  else (s1, none)

/-- RecipeService.updateRecipe: load the recipe; NotFound when absent;
Forbidden when the caller is not the owning user (strict ownership, family
membership irrelevant); then replace the ingredient set when one is supplied
and apply the field update. -/
def updateRecipe (s : Store) (recipeId userId : Nat) (input : UpdateRecipeInput) :
    Except RecipeErr (Store × RecipeRow) :=
  match s.recipes.find? (fun r => decide (r.id = recipeId)) with
  | none => Except.error RecipeErr.notFound
  | some existing =>
    if existing.userId ≠ userId then Except.error RecipeErr.forbidden
    else
      let step1 : Option Store :=
        match input.ingredients with
        | some ings =>
          createMany
            { s with ingredients :=
                s.ingredients.filter (fun i => decide (¬ i.recipeId = recipeId)) }
            recipeId ings
        | none => some s
      match step1 with
      | none => Except.error RecipeErr.persistence
      | some s1 =>
        Except.ok ({ s1 with recipes := s1.recipes.map (fun r =>
          if r.id = recipeId then applyRecipeData input r else r) },
          applyRecipeData input existing)

/-- RecipeService.deleteRecipe: load the recipe; NotFound when absent;
Forbidden when the caller is not the owning user; then delete with cascade. -/
def deleteRecipe (s : Store) (recipeId userId : Nat) : Except RecipeErr Store :=
  match s.recipes.find? (fun r => decide (r.id = recipeId)) with
  | none => Except.error RecipeErr.notFound
  | some existing =>
    if existing.userId ≠ userId then Except.error RecipeErr.forbidden
    else
      Except.ok { s with
        recipes := s.recipes.filter (fun x => decide (¬ x.id = recipeId))
        ingredients := s.ingredients.filter (fun i => decide (¬ i.recipeId = recipeId))
        ratings := s.ratings.filter (fun rt => decide (¬ rt.recipeId = recipeId)) }

/-- RecipeService.incrementUsageCount: prisma recipe.update with an
increment; the prisma model update rejects an update whose record is missing
(error P2025), modelled as NotFound. -/
def incrementUsageCount (s : Store) (id : Nat) : Except RecipeErr Store :=
  if s.recipes.any (fun r => decide (r.id = id)) then
    Except.ok (CustomPrismaClient.incrementUsageCount s id)
  else Except.error RecipeErr.notFound

/-- The fresh rows of the nested ingredient create of cloneRecipe: each
original ingredient is copied by value (itemId, quantity, unit, notes) into
a row with a new identity under the new recipe. -/
def cloneIngredientRows (base newRecipeId : Nat) : List IngredientRow → List IngredientRow
  | [] => []
  | ing :: rest =>
    { id := base, recipeId := newRecipeId, itemId := ing.itemId,
      quantity := ing.quantity, unit := ing.unit, notes := ing.notes } ::
      cloneIngredientRows (base + 1) newRecipeId rest

/-- The recipe row the nested create of cloneRecipe builds: a fresh id, the
name with the copy suffix, usageCount reset to 0, ownership moved to the
caller, every other field copied from the source. -/
def cloneNewRecipe (s : Store) (userId familyId : Nat) (orig : RecipeRow) : RecipeRow :=
  { id := s.nextId, name := orig.name ++ " (Copy)", description := orig.description,
    instructions := orig.instructions, prepTime := orig.prepTime,
    cookTime := orig.cookTime, servings := orig.servings,
    difficulty := orig.difficulty, usageCount := 0,
    userId := userId, familyId := familyId }

/-- The store after the nested create of cloneRecipe. -/
def cloneResultStore (s : Store) (originalRecipeId userId familyId : Nat)
    (orig : RecipeRow) : Store :=
  { s with
    recipes := s.recipes ++ [cloneNewRecipe s userId familyId orig]
    ingredients := s.ingredients ++
      cloneIngredientRows (s.nextId + 1) s.nextId (ingredientsOf s originalRecipeId)
    nextId := s.nextId + 1 + (ingredientsOf s originalRecipeId).length }

/-- RecipeService.cloneRecipe: load the source with its ingredients;
NotFound when absent; create one recipe owned by the caller whose fields
equal the source fields except for a fresh id, the name with the copy
suffix, usageCount 0 and the value-copied ingredient rows with fresh ids;
rating rows are not touched. -/
def cloneRecipe (s : Store) (originalRecipeId userId familyId : Nat) :
    Except RecipeErr (Store × RecipeRow × List IngredientRow) :=
  match s.recipes.find? (fun r => decide (r.id = originalRecipeId)) with
  | none => Except.error RecipeErr.notFound
  | some orig =>
    Except.ok (cloneResultStore s originalRecipeId userId familyId orig,
      cloneNewRecipe s userId familyId orig,
      cloneIngredientRows (s.nextId + 1) s.nextId (ingredientsOf s originalRecipeId))

end RecipeService

namespace RecipeController

/-- RecipeController.updateRecipe: find the recipe; NotFound when absent;
Forbidden only when the caller matches neither the owning user nor the
family id; otherwise delegate to the prisma updateRecipe. -/
def updateRecipe (s : Store) (user : UserContext) (id : Nat) (d : UpdateRecipeInput) :
    Except RecipeErr (Store × RecipeRow) :=
  match s.recipes.find? (fun r => decide (r.id = id)) with
  | none => Except.error RecipeErr.notFound
  | some existing =>
    if existing.userId ≠ user.id ∧ existing.familyId ≠ user.familyId then
      Except.error RecipeErr.forbidden
    else CustomPrismaClient.updateRecipe s id d

/-- RecipeController.deleteRecipe: the same lenient owner-or-family gate,
then the prisma deleteRecipe. -/
def deleteRecipe (s : Store) (user : UserContext) (id : Nat) :
    Except RecipeErr (Store × RecipeRow) :=
  match s.recipes.find? (fun r => decide (r.id = id)) with
  | none => Except.error RecipeErr.notFound
  | some existing =>
    if existing.userId ≠ user.id ∧ existing.familyId ≠ user.familyId then
      Except.error RecipeErr.forbidden
    else CustomPrismaClient.deleteRecipe s id

end RecipeController

/-- A store with no items at all: every ingredient insert violates the item
foreign key. -/
def emptyStore : Store :=
  { recipes := [], ingredients := [], ratings := [], items := [], nextId := 1 }

/-- A create payload whose single ingredient references item 7, absent from
emptyStore. -/
def badCreateInput : CreateRecipeInput :=
  { name := "Soup", description := none, instructions := "Stir",
    prepTime := 5, cookTime := 10, servings := 2, difficulty := none,
    ingredients := [{ itemId := 7, quantity := 1, unit := "cup", notes := none }] }

/-- A create payload whose single ingredient references item 3, present in
demoStore. -/
def goodCreateInput : CreateRecipeInput :=
  { name := "Soup", description := none, instructions := "Stir",
    prepTime := 5, cookTime := 10, servings := 2, difficulty := none,
    ingredients := [{ itemId := 3, quantity := 1, unit := "cup", notes := none }] }

/-- An update payload renaming the recipe and touching nothing else. -/
def renameInput : UpdateRecipeInput :=
  { name := some "Better Pasta", description := none, instructions := none,
    prepTime := none, cookTime := none, servings := none, difficulty := none,
    ingredients := none }

/-- A rating row with scores 5, 5, 1 (sum 11). -/
def ratingRow551 : RatingRow :=
  { id := 5, recipeId := 1, userId := 2, nutrition := some 5, flavor := some 5,
    difficulty := some 1, comment := none }

/-- A rating row with scores 5, 5, 4 (sum 14). -/
def ratingRow554 : RatingRow :=
  { id := 6, recipeId := 1, userId := 3, nutrition := some 5, flavor := some 5,
    difficulty := some 4, comment := none }

/-- The store of the count counterexample: one recipe with the two rating
rows above. -/
def demoStoreC8 : Store :=
  { recipes := [demoRecipe]
    ingredients := []
    ratings := [ratingRow551, ratingRow554]
    items := [demoItem]
    nextId := 9 }

/-- The count filter asking for minRating 4 and nothing else. -/
def demoCountWhere : CustomPrismaClient.CountWhere :=
  { userId := none, familyId := none, difficulty := none, minRating := some 4 }

/-- demoStore with the two example ratings attached to recipe 1. -/
def demoStoreRated : Store :=
  { recipes := [demoRecipe]
    ingredients := [demoIngredient]
    ratings := exampleRatings
    items := [demoItem]
    nextId := 4 }

/-- A filter asking for a minimum rating of 3 and nothing else. -/
def demoFilters : RecipeFilters :=
  { name := none, difficulty := none, maxPrepTime := none, maxCookTime := none,
    minRating := some 3, ingredient := none }

/-- A filter whose prep-time, cook-time and minimum-rating bounds are all the
number 0. -/
def zeroFilters : RecipeFilters :=
  { name := none, difficulty := none, maxPrepTime := some 0, maxCookTime := some 0,
    minRating := some 0, ingredient := none }

theorem filter_isSome_map_getD (rs : List RatingRow) (field : RatingRow → Option ℤ) :
    (rs.filter (fun r => (field r).isSome)).map (fun r => (((field r).getD 0 : ℤ) : ℚ)) =
      (rs.filterMap field).map (fun v => ((v : ℤ) : ℚ)) := by
  induction rs with
  | nil => rfl
  | cons a t ih =>
    cases h : field a with
    | none => simp [List.filter_cons, List.filterMap_cons, h, ih]
    | some v => simp [List.filter_cons, List.filterMap_cons, h, ih]

theorem filter_isSome_length (rs : List RatingRow) (field : RatingRow → Option ℤ) :
    (rs.filter (fun r => (field r).isSome)).length = (rs.filterMap field).length := by
  have h := congrArg List.length (filter_isSome_map_getD rs field)
  simpa using h

/-- C2: RecipeService.calculateAverageRating computes each field as the
arithmetic mean of exactly the non-null values of that field (collected by
filterMap), reporting 0 when no rating carries the field; on the example
ratings {flavor 4} and {flavor 2, nutrition 5} it yields flavor 3,
nutrition 5, difficulty 0. -/
theorem calculateAverageRating_per_field_mean (rs : List RatingRow)
    (field : RatingRow → Option ℤ) :
    (RecipeService.calculateAverageRating rs field =
      if (rs.filterMap field).length = 0 then 0
      else ((rs.filterMap field).map (fun v => ((v : ℤ) : ℚ))).sum /
        (rs.filterMap field).length) ∧
    RecipeService.calculateAverageRating exampleRatings (fun r => r.flavor) = 3 ∧
    RecipeService.calculateAverageRating exampleRatings (fun r => r.nutrition) = 5 ∧
    RecipeService.calculateAverageRating exampleRatings (fun r => r.difficulty) = 0 := by
  refine ⟨?_, ?_, ?_, ?_⟩
  · show (if (rs.filter (fun r => (field r).isSome)).length = 0 then (0:ℚ)
        else ((rs.filter (fun r => (field r).isSome)).map
            (fun r => (((field r).getD 0 : ℤ) : ℚ))).sum /
          (rs.filter (fun r => (field r).isSome)).length) = _
    rw [filter_isSome_map_getD, filter_isSome_length]
  · norm_num [RecipeService.calculateAverageRating, exampleRatings]
  · norm_num [RecipeService.calculateAverageRating, exampleRatings]
  · norm_num [RecipeService.calculateAverageRating, exampleRatings]

theorem pairPred_eq_true (r : RatingRow) (recipeId userId : Nat) :
    ((decide (r.recipeId = recipeId) && decide (r.userId = userId)) = true) ↔
      (r.recipeId = recipeId ∧ r.userId = userId) := by
  simp

theorem suppliedFields_eq_zero {p : RateInput} (h : CustomPrismaClient.suppliedFields p = 0) :
    p.nutrition = none ∧ p.flavor = none ∧ p.difficulty = none ∧ p.comment = none := by
  unfold CustomPrismaClient.suppliedFields at h
  cases hn : p.nutrition <;> cases hf : p.flavor <;> cases hd : p.difficulty <;>
    cases hc : p.comment <;> simp [hn, hf, hd, hc] at h ⊢

theorem pairRows_rateRecipe_create (s : Store) (recipeId userId : Nat) (p : RateInput)
    (hno : pairRows s recipeId userId = [])
    (hrec : s.recipes.any (fun x => decide (x.id = recipeId)) = true) :
    pairRows (CustomPrismaClient.rateRecipe s recipeId userId p).1 recipeId userId =
      [CustomPrismaClient.createRatingRow s recipeId userId p] := by
  have hany : s.ratings.any
      (fun r => decide (r.recipeId = recipeId) && decide (r.userId = userId)) = false := by
    rw [List.any_eq_false]
    intro x hx
    have := List.filter_eq_nil_iff.mp hno x hx
    simpa using this
  unfold CustomPrismaClient.rateRecipe
  rw [hany]
  simp only [Bool.false_eq_true, if_false, hrec, if_true]
  unfold pairRows at hno ⊢
  simp only [List.filter_append, hno, List.nil_append]
  simp [CustomPrismaClient.createRatingRow]

theorem pairRows_any_true (s : Store) (recipeId userId : Nat) (r0 : RatingRow)
    (hmem : r0 ∈ pairRows s recipeId userId) :
    s.ratings.any
      (fun r => decide (r.recipeId = recipeId) && decide (r.userId = userId)) = true := by
  unfold pairRows at hmem
  have h := List.mem_filter.mp hmem
  rw [List.any_eq_true]
  exact ⟨r0, h.1, h.2⟩

theorem rateRecipe_empty_payload (s : Store) (recipeId userId : Nat) (p : RateInput)
    (hany : s.ratings.any
      (fun r => decide (r.recipeId = recipeId) && decide (r.userId = userId)) = true)
    (hsup : CustomPrismaClient.suppliedFields p = 0) :
    CustomPrismaClient.rateRecipe s recipeId userId p = (s, some RecipeErr.persistence) := by
  unfold CustomPrismaClient.rateRecipe
  rw [hany]
  simp [hsup]

theorem pairRows_rateRecipe_update (s : Store) (recipeId userId : Nat) (p : RateInput)
    (r0 : RatingRow) (hone : pairRows s recipeId userId = [r0])
    (hsup : CustomPrismaClient.suppliedFields p ≠ 0) :
    pairRows (CustomPrismaClient.rateRecipe s recipeId userId p).1 recipeId userId =
      [CustomPrismaClient.mergeRatingRow p r0] := by
  have hr0mem : r0 ∈ pairRows s recipeId userId := by
    rw [hone]; exact List.mem_singleton.mpr rfl
  have hr0 : r0 ∈ s.ratings ∧
      ((decide (r0.recipeId = recipeId) && decide (r0.userId = userId)) = true) := by
    unfold pairRows at hr0mem
    exact List.mem_filter.mp hr0mem
  have hany : s.ratings.any
      (fun r => decide (r.recipeId = recipeId) && decide (r.userId = userId)) = true :=
    pairRows_any_true s recipeId userId r0 hr0mem
  unfold CustomPrismaClient.rateRecipe
  rw [hany]
  simp only [if_true, hsup, if_false, if_neg hsup]
  unfold pairRows
  rw [List.filter_map]
  have hcomp : ((fun r => decide (r.recipeId = recipeId) && decide (r.userId = userId)) ∘
      (fun r => if r.recipeId = recipeId ∧ r.userId = userId then
        CustomPrismaClient.mergeRatingRow p r else r)) =
      (fun r => decide (r.recipeId = recipeId) && decide (r.userId = userId)) := by
    funext r
    by_cases h : r.recipeId = recipeId ∧ r.userId = userId
    · simp [h, CustomPrismaClient.mergeRatingRow]
    · simp [h]
  rw [hcomp]
  unfold pairRows at hone
  rw [hone]
  have hcond : r0.recipeId = recipeId ∧ r0.userId = userId :=
    (pairPred_eq_true r0 recipeId userId).mp hr0.2
  simp [hcond]

/-- C3: submitting two rating payloads in sequence for the same
(recipeId, userId) pair, starting with no stored row for the pair and an
existing recipe, leaves exactly one stored rating row; in it every field
supplied by the second payload holds the second payload value, and every
field the second payload omits keeps the value the row had after the first
submission. No duplicate row is created. -/
theorem rateRecipe_upsert_merges_second_over_first (s : Store) (recipeId userId : Nat)
    (p1 p2 : RateInput)
    (hrec : s.recipes.any (fun x => decide (x.id = recipeId)) = true)
    (hno : pairRows s recipeId userId = []) :
    ∃ r1 r2 : RatingRow,
      pairRows (CustomPrismaClient.rateRecipe s recipeId userId p1).1 recipeId userId = [r1] ∧
      pairRows (CustomPrismaClient.rateRecipe
        (CustomPrismaClient.rateRecipe s recipeId userId p1).1 recipeId userId p2).1
        recipeId userId = [r2] ∧
      (∀ v, p2.nutrition = some v → r2.nutrition = some v) ∧
      (p2.nutrition = none → r2.nutrition = r1.nutrition) ∧
      (∀ v, p2.flavor = some v → r2.flavor = some v) ∧
      (p2.flavor = none → r2.flavor = r1.flavor) ∧
      (∀ v, p2.difficulty = some v → r2.difficulty = some v) ∧
      (p2.difficulty = none → r2.difficulty = r1.difficulty) ∧
      (∀ c, p2.comment = some c → r2.comment = some c) ∧
      (p2.comment = none → r2.comment = r1.comment) := by
  set r1 := CustomPrismaClient.createRatingRow s recipeId userId p1 with hr1
  have h1 : pairRows (CustomPrismaClient.rateRecipe s recipeId userId p1).1 recipeId userId =
      [r1] := pairRows_rateRecipe_create s recipeId userId p1 hno hrec
  refine ⟨r1, CustomPrismaClient.mergeRatingRow p2 r1, h1, ?_, ?_, ?_, ?_, ?_, ?_, ?_, ?_, ?_⟩
  · by_cases hsup : CustomPrismaClient.suppliedFields p2 = 0
    · obtain ⟨hn, hf, hd, hc⟩ := suppliedFields_eq_zero hsup
      have hmerge : CustomPrismaClient.mergeRatingRow p2 r1 = r1 := by
        simp [CustomPrismaClient.mergeRatingRow, CustomPrismaClient.mergeField, hn, hf, hd, hc]
      have hmem : r1 ∈ pairRows (CustomPrismaClient.rateRecipe s recipeId userId p1).1
          recipeId userId := by rw [h1]; exact List.mem_singleton.mpr rfl
      have hany := pairRows_any_true _ recipeId userId r1 hmem
      have hstep := rateRecipe_empty_payload _ recipeId userId p2 hany hsup
      rw [hstep, hmerge]
      exact h1
    · exact pairRows_rateRecipe_update _ recipeId userId p2 r1 h1 hsup
  · intro v hv; simp [CustomPrismaClient.mergeRatingRow, CustomPrismaClient.mergeField, hv]
  · intro hv; simp [CustomPrismaClient.mergeRatingRow, CustomPrismaClient.mergeField, hv]
  · intro v hv; simp [CustomPrismaClient.mergeRatingRow, CustomPrismaClient.mergeField, hv]
  · intro hv; simp [CustomPrismaClient.mergeRatingRow, CustomPrismaClient.mergeField, hv]
  · intro v hv; simp [CustomPrismaClient.mergeRatingRow, CustomPrismaClient.mergeField, hv]
  · intro hv; simp [CustomPrismaClient.mergeRatingRow, CustomPrismaClient.mergeField, hv]
  · intro c hc; simp [CustomPrismaClient.mergeRatingRow, CustomPrismaClient.mergeField, hc]
  · intro hc; simp [CustomPrismaClient.mergeRatingRow, CustomPrismaClient.mergeField, hc]

theorem rateRecipe_upsert_merges_second_over_first_witness :
    ∃ r1 r2 : RatingRow,
      pairRows (CustomPrismaClient.rateRecipe demoStore 1 2 ratePayload1).1 1 2 = [r1] ∧
      pairRows (CustomPrismaClient.rateRecipe
        (CustomPrismaClient.rateRecipe demoStore 1 2 ratePayload1).1 1 2 ratePayload2).1
        1 2 = [r2] ∧
      (∀ v, ratePayload2.nutrition = some v → r2.nutrition = some v) ∧
      (ratePayload2.nutrition = none → r2.nutrition = r1.nutrition) ∧
      (∀ v, ratePayload2.flavor = some v → r2.flavor = some v) ∧
      (ratePayload2.flavor = none → r2.flavor = r1.flavor) ∧
      (∀ v, ratePayload2.difficulty = some v → r2.difficulty = some v) ∧
      (ratePayload2.difficulty = none → r2.difficulty = r1.difficulty) ∧
      (∀ c, ratePayload2.comment = some c → r2.comment = some c) ∧
      (ratePayload2.comment = none → r2.comment = r1.comment) :=
  rateRecipe_upsert_merges_second_over_first demoStore 1 2 ratePayload1 ratePayload2
    (by decide) (by decide)

theorem suppliedFields_pos_of_nutrition {p : RateInput} {v : ℤ} (h : p.nutrition = some v) :
    CustomPrismaClient.suppliedFields p ≠ 0 := by
  unfold CustomPrismaClient.suppliedFields
  rw [h]
  simp only [Option.isSome_some, if_true]
  omega

/-- C9: on the insert path of CustomPrismaClient.rateRecipe every supplied
score of 0 is stored as NULL (the value runs through the JavaScript default
value-or-null and 0 is falsy), so it is indistinguishable from an absent
score and is skipped by the non-null filter of calculateAverageRating; on
the update path a supplied 0 is kept as an explicit 0. -/
theorem rateRecipe_zero_stored_as_null_on_create (s : Store) (recipeId userId : Nat)
    (p : RateInput) :
    (pairRows s recipeId userId = [] →
      s.recipes.any (fun x => decide (x.id = recipeId)) = true →
      ∃ r1, pairRows (CustomPrismaClient.rateRecipe s recipeId userId p).1 recipeId userId
          = [r1] ∧
        (p.nutrition = some 0 → r1.nutrition = none) ∧
        (p.flavor = some 0 → r1.flavor = none) ∧
        (p.difficulty = some 0 → r1.difficulty = none) ∧
        (∀ v : ℤ, v ≠ 0 → p.nutrition = some v → r1.nutrition = some v)) ∧
    (∀ r0, pairRows s recipeId userId = [r0] → p.nutrition = some 0 →
      ∃ r1, pairRows (CustomPrismaClient.rateRecipe s recipeId userId p).1 recipeId userId
          = [r1] ∧
        r1.nutrition = some 0) := by
  constructor
  · intro hno hrec
    refine ⟨CustomPrismaClient.createRatingRow s recipeId userId p,
      pairRows_rateRecipe_create s recipeId userId p hno hrec, ?_, ?_, ?_, ?_⟩
    · intro h; simp [CustomPrismaClient.createRatingRow, jsOrNullZ, h]
    · intro h; simp [CustomPrismaClient.createRatingRow, jsOrNullZ, h]
    · intro h; simp [CustomPrismaClient.createRatingRow, jsOrNullZ, h]
    · intro v hv h; simp [CustomPrismaClient.createRatingRow, jsOrNullZ, h, hv]
  · intro r0 hone hzero
    refine ⟨CustomPrismaClient.mergeRatingRow p r0,
      pairRows_rateRecipe_update s recipeId userId p r0 hone
        (suppliedFields_pos_of_nutrition hzero), ?_⟩
    simp [CustomPrismaClient.mergeRatingRow, CustomPrismaClient.mergeField, hzero]

theorem rateRecipe_zero_stored_as_null_on_create_witness :
    (pairRows demoStore 1 2 = [] →
      demoStore.recipes.any (fun x => decide (x.id = 1)) = true →
      ∃ r1, pairRows (CustomPrismaClient.rateRecipe demoStore 1 2 zeroPayload).1 1 2
          = [r1] ∧
        (zeroPayload.nutrition = some 0 → r1.nutrition = none) ∧
        (zeroPayload.flavor = some 0 → r1.flavor = none) ∧
        (zeroPayload.difficulty = some 0 → r1.difficulty = none) ∧
        (∀ v : ℤ, v ≠ 0 → zeroPayload.nutrition = some v → r1.nutrition = some v)) ∧
    (∀ r0, pairRows demoStore 1 2 = [r0] → zeroPayload.nutrition = some 0 →
      ∃ r1, pairRows (CustomPrismaClient.rateRecipe demoStore 1 2 zeroPayload).1 1 2
          = [r1] ∧
        r1.nutrition = some 0) :=
  rateRecipe_zero_stored_as_null_on_create demoStore 1 2 zeroPayload

theorem calculateAverageRating_nonneg (rts : List RatingRow) (field : RatingRow → Option ℤ)
    (h : ∀ rt ∈ rts, (0:ℤ) ≤ (field rt).getD 0) :
    0 ≤ RecipeService.calculateAverageRating rts field := by
  show (0:ℚ) ≤ if (rts.filter (fun r => (field r).isSome)).length = 0 then 0
    else ((rts.filter (fun r => (field r).isSome)).map
        (fun r => (((field r).getD 0 : ℤ) : ℚ))).sum /
      (rts.filter (fun r => (field r).isSome)).length
  by_cases hlen : (rts.filter (fun r => (field r).isSome)).length = 0
  · rw [if_pos hlen]
  · rw [if_neg hlen]
    apply div_nonneg
    · apply List.sum_nonneg
      intro x hx
      obtain ⟨r, hr, rfl⟩ := List.mem_map.mp hx
      have hmem := List.mem_of_mem_filter hr
      exact_mod_cast h r hmem
    · exact Nat.cast_nonneg _

theorem listRecipes_eq (s : Store) (familyId : Nat) (f : RecipeFilters) :
    RecipeService.listRecipes s familyId f =
      match truthyQ f.minRating with
      | none => (s.recipes.filter (RecipeService.listWhere s familyId f)).map
          (RecipeService.detailsFor s)
      | some m => ((s.recipes.filter (RecipeService.listWhere s familyId f)).map
          (RecipeService.detailsFor s)).filter (fun d => decide (m ≤ d.avgFlavor)) := rfl

/-- C7: with a minRating filter present, listRecipes returns exactly the
family recipes passing the pushed-down filters whose aggregator-computed
average flavor rating is at least minRating: the result equals the
minRating-free listing post-filtered on the flavor average alone. The
hypothesis that stored flavor scores are non-negative reflects the 0..5
validation of the rating schema and covers the case minRating = 0, where the
code skips the falsy filter but every flavor average passes it anyway. -/
theorem listRecipes_minRating_flavor_postfilter (s : Store) (familyId : Nat)
    (f : RecipeFilters) (m : ℚ) (hm : f.minRating = some m)
    (hnn : ∀ rt ∈ s.ratings, (0:ℤ) ≤ rt.flavor.getD 0) :
    RecipeService.listRecipes s familyId f =
      (RecipeService.listRecipes s familyId { f with minRating := none }).filter
        (fun d => decide (m ≤ d.avgFlavor)) := by
  have hrhs : RecipeService.listRecipes s familyId { f with minRating := none } =
      (s.recipes.filter (RecipeService.listWhere s familyId f)).map
        (RecipeService.detailsFor s) := rfl
  rw [hrhs, listRecipes_eq, hm]
  by_cases hm0 : m = 0
  · subst hm0
    have h0 : truthyQ (some (0:ℚ)) = none := by simp [truthyQ]
    rw [h0]
    symm
    rw [List.filter_eq_self]
    intro d hd
    obtain ⟨r, hr, rfl⟩ := List.mem_map.mp hd
    have hnn2 : ∀ rt ∈ ratingsOf s r.id, (0:ℤ) ≤ rt.flavor.getD 0 := by
      intro rt hrt
      exact hnn rt (List.mem_of_mem_filter hrt)
    have := calculateAverageRating_nonneg (ratingsOf s r.id) (fun x => x.flavor) hnn2
    simpa [RecipeService.detailsFor] using this
  · have h1 : truthyQ (some m) = some m := by simp [truthyQ, hm0]
    rw [h1]

theorem listRecipes_minRating_flavor_postfilter_witness :
    demoFilters.minRating = some 3 ∧
    (∀ rt ∈ demoStoreRated.ratings, (0:ℤ) ≤ rt.flavor.getD 0) ∧
    RecipeService.listRecipes demoStoreRated 10 demoFilters =
      (RecipeService.listRecipes demoStoreRated 10
        { demoFilters with minRating := none }).filter
        (fun d => decide ((3:ℚ) ≤ d.avgFlavor)) :=
  ⟨rfl, by decide,
    listRecipes_minRating_flavor_postfilter demoStoreRated 10 demoFilters 3 rfl (by decide)⟩

/-- C10: a listRecipes filter field holding the number 0 is falsy and thus
treated exactly as an absent filter: bounds maxPrepTime = 0 and
maxCookTime = 0 impose no upper bound and minRating = 0 disables the
post-filter, so the call equals the call with those fields absent; on the
demo store the all-zero filter still returns the recipe with prepTime 30,
which a literal bound of 0 would have excluded. -/
theorem listRecipes_zero_filter_values_ignored (s : Store) (familyId : Nat)
    (f : RecipeFilters) :
    RecipeService.listRecipes s familyId
        { f with maxPrepTime := some 0, maxCookTime := some 0, minRating := some 0 } =
      RecipeService.listRecipes s familyId
        { f with maxPrepTime := none, maxCookTime := none, minRating := none } ∧
    (RecipeService.listRecipes demoStore 10 zeroFilters).map
        (fun d => d.recipe.prepTime) = [30] ∧
    ¬ demoRecipe.prepTime ≤ 0 := by
  exact ⟨rfl, by decide, by norm_num [demoRecipe]⟩

theorem serviceUpdate_forbidden_of_not_owner (s : Store) (recipeId userId : Nat)
    (input : UpdateRecipeInput) (r : RecipeRow)
    (hfind : s.recipes.find? (fun x => decide (x.id = recipeId)) = some r)
    (hne : userId ≠ r.userId) :
    RecipeService.updateRecipe s recipeId userId input = Except.error RecipeErr.forbidden := by
  unfold RecipeService.updateRecipe
  rw [hfind]
  show (if r.userId ≠ userId then Except.error RecipeErr.forbidden else _) = _
  rw [if_pos (Ne.symm hne)]

theorem serviceDelete_forbidden_of_not_owner (s : Store) (recipeId userId : Nat)
    (r : RecipeRow)
    (hfind : s.recipes.find? (fun x => decide (x.id = recipeId)) = some r)
    (hne : userId ≠ r.userId) :
    RecipeService.deleteRecipe s recipeId userId = Except.error RecipeErr.forbidden := by
  unfold RecipeService.deleteRecipe
  rw [hfind]
  show (if r.userId ≠ userId then Except.error RecipeErr.forbidden else _) = _
  rw [if_pos (Ne.symm hne)]

/-- C1 (amended): for the RecipeService operations the claim holds: with the
recipe present, updateRecipe and deleteRecipe fail Forbidden for every
caller other than the owning user — family membership grants nothing — and
can succeed only for the owner. (The RecipeController route handlers use a
weaker gate; see the counterexample.) -/
theorem service_update_delete_strict_ownership (s : Store) (recipeId userId : Nat)
    (input : UpdateRecipeInput) (r : RecipeRow)
    (hfind : s.recipes.find? (fun x => decide (x.id = recipeId)) = some r) :
    (userId ≠ r.userId →
      RecipeService.updateRecipe s recipeId userId input = Except.error RecipeErr.forbidden ∧
      RecipeService.deleteRecipe s recipeId userId = Except.error RecipeErr.forbidden) ∧
    (∀ out, RecipeService.updateRecipe s recipeId userId input = Except.ok out →
      userId = r.userId) ∧
    (∀ out, RecipeService.deleteRecipe s recipeId userId = Except.ok out →
      userId = r.userId) := by
  refine ⟨fun hne => ⟨serviceUpdate_forbidden_of_not_owner s recipeId userId input r hfind hne,
    serviceDelete_forbidden_of_not_owner s recipeId userId r hfind hne⟩, ?_, ?_⟩
  · intro out hout
    by_contra hne
    rw [serviceUpdate_forbidden_of_not_owner s recipeId userId input r hfind hne] at hout
    exact Except.noConfusion hout
  · intro out hout
    by_contra hne
    rw [serviceDelete_forbidden_of_not_owner s recipeId userId r hfind hne] at hout
    exact Except.noConfusion hout

theorem service_update_delete_strict_ownership_witness :
    (demoStore.recipes.find? (fun x => decide (x.id = 1)) = some demoRecipe) ∧
    ((2 ≠ demoRecipe.userId →
      RecipeService.updateRecipe demoStore 1 2 renameInput = Except.error RecipeErr.forbidden ∧
      RecipeService.deleteRecipe demoStore 1 2 = Except.error RecipeErr.forbidden) ∧
    (∀ out, RecipeService.updateRecipe demoStore 1 2 renameInput = Except.ok out →
      2 = demoRecipe.userId) ∧
    (∀ out, RecipeService.deleteRecipe demoStore 1 2 = Except.ok out →
      2 = demoRecipe.userId)) :=
  ⟨by decide, service_update_delete_strict_ownership demoStore 1 2 renameInput demoRecipe
    (by decide)⟩

/-- C1 (counterexample): the RecipeController update handler lets a family
member who is not the owner through: with recipe 1 owned by user 1 in
family 10, the caller user 2 of family 10 is not rejected — the update
succeeds instead of failing Forbidden, so family membership alone does grant
update rights on this code path. -/
theorem controllerUpdate_allows_family_member :
    demoRecipe.userId = 1 ∧ demoRecipe.familyId = 10 ∧
    (RecipeController.updateRecipe demoStore
        { id := 2, role := "PARENT", familyId := 10 } 1 renameInput).isOk = true ∧
    (RecipeController.deleteRecipe demoStore
        { id := 2, role := "PARENT", familyId := 10 } 1).isOk = true := by
  refine ⟨rfl, rfl, ?_, ?_⟩ <;> decide

theorem map_increment_id_not_present {l : List RecipeRow} {id : Nat}
    (h : ∀ r ∈ l, ¬ r.id = id) :
    l.map (fun r => if r.id = id then { r with usageCount := r.usageCount + 1 } else r)
      = l := by
  induction l with
  | nil => rfl
  | cons a t ih =>
    rw [List.map_cons, if_neg (h a (List.mem_cons_self a t)),
      ih (fun r hr => h r (List.mem_cons_of_mem a hr))]

/-- C5 (amended): the raw-SQL CustomPrismaClient.incrementUsageCount cannot
fail: on a missing id it completes with the store unchanged instead of
raising NotFound (only the prisma-model-based RecipeService.incrementUsageCount
rejects a missing id). On a present id it increments exactly that recipe by
exactly 1 and changes no other recipe and no other table. -/
theorem incrementUsageCount_semantics (s : Store) (id : Nat) :
    (s.recipes.all (fun r => decide (¬ r.id = id)) = true →
      CustomPrismaClient.incrementUsageCount s id = s ∧
      RecipeService.incrementUsageCount s id = Except.error RecipeErr.notFound) ∧
    (∀ r ∈ s.recipes, r.id = id →
      { r with usageCount := r.usageCount + 1 } ∈
        (CustomPrismaClient.incrementUsageCount s id).recipes) ∧
    (∀ r ∈ s.recipes, ¬ r.id = id →
      r ∈ (CustomPrismaClient.incrementUsageCount s id).recipes) ∧
    (CustomPrismaClient.incrementUsageCount s id).ingredients = s.ingredients ∧
    (CustomPrismaClient.incrementUsageCount s id).ratings = s.ratings ∧
    (s.recipes.any (fun r => decide (r.id = id)) = true →
      RecipeService.incrementUsageCount s id =
        Except.ok (CustomPrismaClient.incrementUsageCount s id)) := by
  refine ⟨?_, ?_, ?_, rfl, rfl, ?_⟩
  · intro h
    have hprop : ∀ r ∈ s.recipes, ¬ r.id = id := by
      intro r hr
      have := List.all_eq_true.mp h r hr
      simpa using this
    constructor
    · unfold CustomPrismaClient.incrementUsageCount
      rw [map_increment_id_not_present hprop]
    · unfold RecipeService.incrementUsageCount
      rw [if_neg]
      rw [List.any_eq_true]
      rintro ⟨x, hx, hpx⟩
      exact hprop x hx (by simpa using hpx)
  · intro r hr hid
    unfold CustomPrismaClient.incrementUsageCount
    have h2 := List.mem_map_of_mem
      (fun x => if x.id = id then { x with usageCount := x.usageCount + 1 } else x) hr
    simpa only [hid, if_true, eq_self_iff_true] using h2
  · intro r hr hid
    unfold CustomPrismaClient.incrementUsageCount
    have h2 := List.mem_map_of_mem
      (fun x => if x.id = id then { x with usageCount := x.usageCount + 1 } else x) hr
    simp only [hid, if_false] at h2
    exact h2
  · intro h
    unfold RecipeService.incrementUsageCount
    rw [if_pos h]

theorem incrementUsageCount_semantics_witness :
    (CustomPrismaClient.incrementUsageCount demoStore 99 = demoStore ∧
      RecipeService.incrementUsageCount demoStore 99 = Except.error RecipeErr.notFound) ∧
    ({ demoRecipe with usageCount := demoRecipe.usageCount + 1 } ∈
      (CustomPrismaClient.incrementUsageCount demoStore 1).recipes) ∧
    RecipeService.incrementUsageCount demoStore 1 =
      Except.ok (CustomPrismaClient.incrementUsageCount demoStore 1) :=
  ⟨(incrementUsageCount_semantics demoStore 99).1 (by decide),
   (incrementUsageCount_semantics demoStore 1).2.1 demoRecipe (by decide) (by decide),
   (incrementUsageCount_semantics demoStore 1).2.2.2.2.2 (by decide)⟩

/-- C5 (counterexample): incrementing the usage count of the absent id 99
raises nothing — the raw UPDATE has no error outcome at all — and silently
leaves the store unchanged, where the claim demands a NotFound failure. -/
theorem incrementUsageCount_missing_id_silently_succeeds :
    demoStore.recipes.all (fun r => decide (¬ r.id = 99)) = true ∧
    CustomPrismaClient.incrementUsageCount demoStore 99 = demoStore :=
  ⟨by decide, by decide⟩

theorem jsOrNullStr_of_ne_empty {o : Option String} (h : ¬ o = some "") :
    jsOrNullStr o = o := by
  cases o with
  | none => rfl
  | some str =>
    have hne : ¬ str = "" := fun he => h (by rw [he])
    simp [jsOrNullStr, hne]

theorem ingredientsOf_append_row (s : Store) (rid nid : Nat) (row : IngredientRow)
    (hrow : row.recipeId = rid) :
    ingredientsOf { s with ingredients := s.ingredients ++ [row], nextId := nid } rid =
      ingredientsOf s rid ++ [row] := by
  unfold ingredientsOf
  rw [List.filter_append]
  simp [hrow]

theorem insertIngredientsSeq_spec (ings : List IngredientInput) :
    ∀ (s : Store) (rid : Nat) (s2 : Store),
      insertIngredientsSeq s rid ings = some s2 →
      s2.recipes = s.recipes ∧ s2.ratings = s.ratings ∧
      (ingredientsOf s2 rid).map ingredientVals =
        (ingredientsOf s rid).map ingredientVals ++ ings.map inputVals := by
  induction ings with
  | nil =>
    intro s rid s2 h
    unfold insertIngredientsSeq at h
    injection h with h
    subst h
    simp
  | cons ing rest ih =>
    intro s rid s2 h
    unfold insertIngredientsSeq at h
    by_cases hit : itemExists s ing.itemId
    · rw [if_pos hit] at h
      obtain ⟨h1, h2, h3⟩ := ih _ rid s2 h
      refine ⟨by simpa using h1, by simpa using h2, ?_⟩
      rw [h3, ingredientsOf_append_row s rid (s.nextId + 1) _ rfl]
      simp [ingredientVals, inputVals, List.map_append]
    · rw [if_neg hit] at h
      exact Option.noConfusion h

theorem find?_append_fresh (l : List RecipeRow) (row : RecipeRow) (p : RecipeRow → Bool)
    (hnone : ∀ x ∈ l, ¬ p x = true) (hrow : p row = true) :
    (l ++ [row]).find? p = some row := by
  rw [List.find?_append, List.find?_eq_none.mpr hnone]
  simp [List.find?, hrow]

/-- C4 (amended): CustomPrismaClient.createRecipe runs the parent insert and
the ingredient inserts inside one transaction: on a failing insert no store
change survives at all, and on success an immediate findRecipeById returns
the new recipe whose ingredient value set equals the submitted list (with
notes passed through the value-or-null default, which is the identity unless
a notes field is the empty string) and which has no ratings. The parallel
RecipeService.createRecipe is not transactional; see the counterexample. -/
theorem createRecipe_atomic_with_readback (s : Store) (userId familyId : Nat)
    (d : CreateRecipeInput)
    (hwfr : s.recipes.all (fun r => decide (r.id < s.nextId)) = true)
    (hwfi : s.ingredients.all (fun i => decide (i.recipeId < s.nextId)) = true)
    (hwfrt : s.ratings.all (fun rt => decide (rt.recipeId < s.nextId)) = true) :
    (∀ e, (CustomPrismaClient.runCreateRecipe s userId familyId d).2 = some e →
      (CustomPrismaClient.runCreateRecipe s userId familyId d).1 = s) ∧
    (∀ s2 rid, CustomPrismaClient.createRecipe s userId familyId d = Except.ok (s2, rid) →
      ∃ r ings rts, CustomPrismaClient.findRecipeById s2 rid = some (r, ings, rts) ∧
        ings.map ingredientVals = d.ingredients.map inputVals ∧
        (d.ingredients.all (fun ing => decide (¬ ing.notes = some "")) = true →
          ings.map ingredientVals = d.ingredients.map inputValsPlain) ∧
        rts = []) := by
  constructor
  · intro e he
    unfold CustomPrismaClient.runCreateRecipe at he ⊢
    cases hc : CustomPrismaClient.createRecipe s userId familyId d with
    | ok pair =>
      obtain ⟨s2, rid⟩ := pair
      rw [hc] at he
      simp at he
    | error e2 => rfl
  · intro s2 rid hok
    unfold CustomPrismaClient.createRecipe at hok
    cases hseq : insertIngredientsSeq (CustomPrismaClient.recipeInsertedState
        s userId familyId d) s.nextId d.ingredients with
    | none =>
      rw [hseq] at hok
      exact Except.noConfusion hok
    | some s3 =>
      rw [hseq] at hok
      simp only [Except.ok.injEq, Prod.mk.injEq] at hok
      obtain ⟨hs3, hrid⟩ := hok
      subst hrid
      rw [← hs3]
      obtain ⟨h1, h2, h3⟩ := insertIngredientsSeq_spec d.ingredients _ s.nextId s3 hseq
      have hrecs : (CustomPrismaClient.recipeInsertedState s userId familyId d).recipes =
          s.recipes ++ [CustomPrismaClient.newRecipeRow s userId familyId d] := rfl
      have hingbase : ingredientsOf
          (CustomPrismaClient.recipeInsertedState s userId familyId d) s.nextId = [] := by
        unfold ingredientsOf CustomPrismaClient.recipeInsertedState
        rw [List.filter_eq_nil_iff]
        intro i hi
        have hlt := List.all_eq_true.mp hwfi i hi
        simp only [decide_eq_true_eq] at hlt ⊢
        omega
      have hfind : s3.recipes.find? (fun r => decide (r.id = s.nextId)) =
          some (CustomPrismaClient.newRecipeRow s userId familyId d) := by
        rw [h1, hrecs]
        apply find?_append_fresh
        · intro x hx
          have hlt := List.all_eq_true.mp hwfr x hx
          simp only [decide_eq_true_eq] at hlt ⊢
          omega
        · simp [CustomPrismaClient.newRecipeRow]
      refine ⟨CustomPrismaClient.newRecipeRow s userId familyId d,
        ingredientsOf s3 s.nextId, ratingsOf s3 s.nextId, ?_, ?_, ?_, ?_⟩
      · unfold CustomPrismaClient.findRecipeById
        rw [hfind]
      · rw [h3, hingbase]
        simp
      · intro hnotes
        rw [h3, hingbase]
        simp only [List.map_nil, List.nil_append]
        apply List.map_congr_left
        intro ing hing
        have hne := List.all_eq_true.mp hnotes ing hing
        simp only [decide_eq_true_eq] at hne
        unfold inputVals inputValsPlain
        rw [jsOrNullStr_of_ne_empty hne]
      · unfold ratingsOf
        rw [h2]
        show (CustomPrismaClient.recipeInsertedState s userId familyId d).ratings.filter _
          = []
        rw [List.filter_eq_nil_iff]
        intro rt hrt
        have hlt := List.all_eq_true.mp hwfrt rt hrt
        simp only [decide_eq_true_eq] at hlt ⊢
        omega

theorem createRecipe_atomic_with_readback_witness :
    (∀ e, (CustomPrismaClient.runCreateRecipe demoStore 1 10 goodCreateInput).2 = some e →
      (CustomPrismaClient.runCreateRecipe demoStore 1 10 goodCreateInput).1 = demoStore) ∧
    (∀ s2 rid,
      CustomPrismaClient.createRecipe demoStore 1 10 goodCreateInput = Except.ok (s2, rid) →
      ∃ r ings rts, CustomPrismaClient.findRecipeById s2 rid = some (r, ings, rts) ∧
        ings.map ingredientVals = goodCreateInput.ingredients.map inputVals ∧
        (goodCreateInput.ingredients.all (fun ing => decide (¬ ing.notes = some "")) = true →
          ings.map ingredientVals = goodCreateInput.ingredients.map inputValsPlain) ∧
        rts = []) :=
  createRecipe_atomic_with_readback demoStore 1 10 goodCreateInput
    (by decide) (by decide) (by decide)

/-- C4 (counterexample): RecipeService.createRecipe is not atomic: with no
item 7 in the store, the ingredient batch insert fails after the parent
insert already ran, and the failed invocation leaves the parent recipe row
persisted with no ingredient rows — a partial write survives. -/
theorem serviceCreateRecipe_not_atomic :
    (RecipeService.createRecipe emptyStore 1 10 badCreateInput).2 =
      some RecipeErr.persistence ∧
    (RecipeService.createRecipe emptyStore 1 10 badCreateInput).1.recipes.length = 1 ∧
    emptyStore.recipes = [] ∧
    (RecipeService.createRecipe emptyStore 1 10 badCreateInput).1.ingredients = [] := by
  refine ⟨?_, ?_, rfl, ?_⟩ <;> decide

theorem cloneIngredientRows_vals (l : List IngredientRow) :
    ∀ base nrid, (RecipeService.cloneIngredientRows base nrid l).map ingredientVals =
      l.map ingredientVals := by
  induction l with
  | nil => intro base nrid; rfl
  | cons a t ih =>
    intro base nrid
    unfold RecipeService.cloneIngredientRows
    simp only [List.map_cons, ih]
    rfl

theorem cloneIngredientRows_mem (l : List IngredientRow) :
    ∀ base nrid ni, ni ∈ RecipeService.cloneIngredientRows base nrid l →
      base ≤ ni.id ∧ ni.recipeId = nrid := by
  induction l with
  | nil =>
    intro base nrid ni h
    exact absurd h (List.not_mem_nil ni)
  | cons a t ih =>
    intro base nrid ni h
    unfold RecipeService.cloneIngredientRows at h
    rcases List.mem_cons.mp h with h | h
    · subst h
      exact ⟨Nat.le_refl _, rfl⟩
    · obtain ⟨h1, h2⟩ := ih (base + 1) nrid ni h
      exact ⟨by omega, h2⟩

/-- C6: for an existing source recipe, cloneRecipe produces a recipe owned
by the caller with a fresh id (equal to no stored recipe id), the source
name with the copy suffix, usageCount 0, every other recipe field equal to
the source, ingredient rows equal in value (itemId, quantity, unit, notes)
to the source rows but with fresh identities under the new recipe, and zero
rating rows; on an absent source id it fails NotFound. -/
theorem cloneRecipe_spec (s : Store) (originalRecipeId userId familyId : Nat)
    (orig : RecipeRow)
    (hfind : s.recipes.find? (fun r => decide (r.id = originalRecipeId)) = some orig)
    (hwfr : s.recipes.all (fun r => decide (r.id < s.nextId)) = true)
    (hwfi : s.ingredients.all (fun i => decide (i.id < s.nextId)) = true)
    (hwfrt : s.ratings.all (fun rt => decide (rt.recipeId < s.nextId)) = true) :
    (∃ s2 nr nings,
      RecipeService.cloneRecipe s originalRecipeId userId familyId =
        Except.ok (s2, nr, nings) ∧
      (∀ r ∈ s.recipes, ¬ r.id = nr.id) ∧
      nr.name = orig.name ++ " (Copy)" ∧
      nr.usageCount = 0 ∧ nr.userId = userId ∧ nr.familyId = familyId ∧
      nr.description = orig.description ∧ nr.instructions = orig.instructions ∧
      nr.prepTime = orig.prepTime ∧ nr.cookTime = orig.cookTime ∧
      nr.servings = orig.servings ∧ nr.difficulty = orig.difficulty ∧
      nings.map ingredientVals = (ingredientsOf s originalRecipeId).map ingredientVals ∧
      (∀ ni ∈ nings, ni.recipeId = nr.id ∧ ∀ i ∈ s.ingredients, ¬ i.id = ni.id) ∧
      ratingsOf s2 nr.id = [] ∧
      s2.ratings = s.ratings ∧
      nr ∈ s2.recipes) ∧
    (∀ badId, s.recipes.find? (fun r => decide (r.id = badId)) = none →
      RecipeService.cloneRecipe s badId userId familyId =
        Except.error RecipeErr.notFound) := by
  constructor
  · have hc : RecipeService.cloneRecipe s originalRecipeId userId familyId =
        Except.ok (RecipeService.cloneResultStore s originalRecipeId userId familyId orig,
          RecipeService.cloneNewRecipe s userId familyId orig,
          RecipeService.cloneIngredientRows (s.nextId + 1) s.nextId
            (ingredientsOf s originalRecipeId)) := by
      unfold RecipeService.cloneRecipe
      rw [hfind]
    refine ⟨_, _, _, hc, ?_, rfl, rfl, rfl, rfl, rfl, rfl, rfl, rfl, rfl, rfl,
      cloneIngredientRows_vals _ _ _, ?_, ?_, rfl, ?_⟩
    · intro r hr
      have hlt := List.all_eq_true.mp hwfr r hr
      simp only [decide_eq_true_eq] at hlt
      show ¬ r.id = s.nextId
      omega
    · intro ni hni
      obtain ⟨hbase, hrid⟩ := cloneIngredientRows_mem _ _ _ ni hni
      refine ⟨hrid, ?_⟩
      intro i hi
      have hlt := List.all_eq_true.mp hwfi i hi
      simp only [decide_eq_true_eq] at hlt
      omega
    · show (RecipeService.cloneResultStore s originalRecipeId userId familyId
        orig).ratings.filter _ = []
      rw [List.filter_eq_nil_iff]
      intro rt hrt
      have hmem : rt ∈ s.ratings := hrt
      have hlt := List.all_eq_true.mp hwfrt rt hmem
      simp only [decide_eq_true_eq] at hlt ⊢
      show ¬ rt.recipeId = s.nextId
      omega
    · show RecipeService.cloneNewRecipe s userId familyId orig ∈
        s.recipes ++ [RecipeService.cloneNewRecipe s userId familyId orig]
      exact List.mem_append_right _ (List.mem_singleton.mpr rfl)
  · intro badId hnone
    unfold RecipeService.cloneRecipe
    rw [hnone]

theorem cloneRecipe_spec_witness :
    (∃ s2 nr nings,
      RecipeService.cloneRecipe demoStore 1 2 20 = Except.ok (s2, nr, nings) ∧
      (∀ r ∈ demoStore.recipes, ¬ r.id = nr.id) ∧
      nr.name = demoRecipe.name ++ " (Copy)" ∧
      nr.usageCount = 0 ∧ nr.userId = 2 ∧ nr.familyId = 20 ∧
      nr.description = demoRecipe.description ∧
      nr.instructions = demoRecipe.instructions ∧
      nr.prepTime = demoRecipe.prepTime ∧ nr.cookTime = demoRecipe.cookTime ∧
      nr.servings = demoRecipe.servings ∧ nr.difficulty = demoRecipe.difficulty ∧
      nings.map ingredientVals = (ingredientsOf demoStore 1).map ingredientVals ∧
      (∀ ni ∈ nings, ni.recipeId = nr.id ∧ ∀ i ∈ demoStore.ingredients, ¬ i.id = ni.id) ∧
      ratingsOf s2 nr.id = [] ∧
      s2.ratings = demoStore.ratings ∧
      nr ∈ s2.recipes) ∧
    (∀ badId, demoStore.recipes.find? (fun r => decide (r.id = badId)) = none →
      RecipeService.cloneRecipe demoStore badId 2 20 =
        Except.error RecipeErr.notFound) :=
  cloneRecipe_spec demoStore 1 2 20 demoRecipe (by decide) (by decide) (by decide)
    (by decide)

theorem optCondNat_iff (o : Option Nat) (v : Nat) :
    (CustomPrismaClient.optCondNat o v = true) ↔ (∀ u, o = some u → v = u) := by
  cases o <;> simp [CustomPrismaClient.optCondNat]

theorem optCondDiff_iff (o : Option Difficulty) (v : Difficulty) :
    (CustomPrismaClient.optCondDiff o v = true) ↔ (∀ dd, o = some dd → v = dd) := by
  cases o <;> simp [CustomPrismaClient.optCondDiff]

theorem minRatingCond_iff (s : Store) (m : ℚ) (rid : Nat) (hm0 : ¬ m = 0) :
    (CustomPrismaClient.minRatingCond s (some m) rid = true) ↔
      (¬ ratingsOf s rid = [] ∧
        m ≤ ((ratingsOf s rid).map
            (fun rt => ((CustomPrismaClient.jointRowScore rt : ℤ) : ℚ))).sum /
          (ratingsOf s rid).length) := by
  have ht : truthyQ (some m) = some m := by simp [truthyQ, hm0]
  unfold CustomPrismaClient.minRatingCond
  rw [ht]
  cases hrows : ratingsOf s rid with
  | nil => simp [CustomPrismaClient.jointRatingAvg]
  | cons a t =>
    have havg : CustomPrismaClient.jointRatingAvg (a :: t) =
        some (((a :: t).map
            (fun rt => ((CustomPrismaClient.jointRowScore rt : ℤ) : ℚ))).sum /
          (a :: t).length) := rfl
    rw [havg]
    simp

/-- C8 (amended): with a nonzero minRating bound, countRecipes counts a
recipe exactly when the other pushed conditions hold, the recipe has at
least one rating row, and the mean over its rating rows of the truncated
integer quotient (nutrition + flavor + difficulty) div 3 — null fields as
zero, division truncating as SQLite integer division — is at least
minRating; a recipe with no rating rows is never counted. This is still a
different rule from the per-field means of the detail view. -/
theorem countRecipes_truncated_joint_mean (s : Store) (w : CustomPrismaClient.CountWhere)
    (m : ℚ) (hm : w.minRating = some m) (hm0 : ¬ m = 0) :
    CustomPrismaClient.countRecipes s w =
      (s.recipes.filter (CustomPrismaClient.countedPred s w)).length ∧
    ∀ r, CustomPrismaClient.countedPred s w r = true ↔
      ((∀ u, w.userId = some u → r.userId = u) ∧
       (∀ fi, w.familyId = some fi → r.familyId = fi) ∧
       (∀ dd, w.difficulty = some dd → r.difficulty = dd) ∧
       ¬ ratingsOf s r.id = [] ∧
       m ≤ ((ratingsOf s r.id).map
            (fun rt => ((CustomPrismaClient.jointRowScore rt : ℤ) : ℚ))).sum /
          (ratingsOf s r.id).length) := by
  refine ⟨rfl, ?_⟩
  intro r
  unfold CustomPrismaClient.countedPred
  rw [hm]
  simp only [Bool.and_eq_true, optCondNat_iff, optCondDiff_iff,
    minRatingCond_iff s m r.id hm0]
  constructor
  · rintro ⟨⟨⟨h1, h2⟩, h3⟩, h4, h5⟩
    exact ⟨h1, h2, h3, h4, h5⟩
  · rintro ⟨h1, h2, h3, h4, h5⟩
    exact ⟨⟨⟨h1, h2⟩, h3⟩, h4, h5⟩

theorem countRecipes_truncated_joint_mean_witness :
    demoCountWhere.minRating = some 4 ∧ ¬ (4:ℚ) = 0 ∧
    (CustomPrismaClient.countRecipes demoStoreC8 demoCountWhere =
      (demoStoreC8.recipes.filter
        (CustomPrismaClient.countedPred demoStoreC8 demoCountWhere)).length ∧
    ∀ r, CustomPrismaClient.countedPred demoStoreC8 demoCountWhere r = true ↔
      ((∀ u, demoCountWhere.userId = some u → r.userId = u) ∧
       (∀ fi, demoCountWhere.familyId = some fi → r.familyId = fi) ∧
       (∀ dd, demoCountWhere.difficulty = some dd → r.difficulty = dd) ∧
       ¬ ratingsOf demoStoreC8 r.id = [] ∧
       (4:ℚ) ≤ ((ratingsOf demoStoreC8 r.id).map
            (fun rt => ((CustomPrismaClient.jointRowScore rt : ℤ) : ℚ))).sum /
          (ratingsOf demoStoreC8 r.id).length)) :=
  ⟨rfl, by norm_num,
    countRecipes_truncated_joint_mean demoStoreC8 demoCountWhere 4 rfl (by norm_num)⟩

/-- C8 (counterexample): the code computes the per-row value with SQLite
integer division, so for the recipe with rating sums 11 and 14 the code sees
the avg of 3 and 4 (3.5) and excludes it from a minRating 4 count, while the
exact joint mean of the claim is 25/6, which is at least 4 and would include
it: countRecipes returns 0 where the claim demands 1. -/
theorem countRecipes_integer_division_counterexample :
    CustomPrismaClient.countRecipes demoStoreC8 demoCountWhere = 0 ∧
    demoStoreC8.recipes = [demoRecipe] ∧
    demoCountWhere.minRating = some 4 ∧
    (4:ℚ) ≤ claimJointMean (ratingsOf demoStoreC8 demoRecipe.id) := by
  have hrows : ratingsOf demoStoreC8 demoRecipe.id = [ratingRow551, ratingRow554] := by
    decide
  have h1 : CustomPrismaClient.jointRowScore ratingRow551 = 3 := by decide
  have h2 : CustomPrismaClient.jointRowScore ratingRow554 = 4 := by decide
  have havg : CustomPrismaClient.jointRatingAvg [ratingRow551, ratingRow554] =
      some (7 / 2) := by
    unfold CustomPrismaClient.jointRatingAvg
    simp only [List.map_cons, List.map_nil, h1, h2]
    norm_num
  have hcond : CustomPrismaClient.minRatingCond demoStoreC8
      demoCountWhere.minRating demoRecipe.id = false := by
    unfold CustomPrismaClient.minRatingCond
    have ht : truthyQ demoCountWhere.minRating = some 4 := by
      norm_num [truthyQ, demoCountWhere]
    rw [ht, hrows, havg]
    norm_num
  have hpred : CustomPrismaClient.countedPred demoStoreC8 demoCountWhere demoRecipe
      = false := by
    unfold CustomPrismaClient.countedPred
    rw [hcond]
    simp
  refine ⟨?_, rfl, rfl, ?_⟩
  · unfold CustomPrismaClient.countRecipes
    show (List.filter _ [demoRecipe]).length = 0
    rw [List.filter_cons, hpred]
    rfl
  · rw [hrows]
    norm_num [claimJointMean, ratingRow551, ratingRow554]
